import Mathlib

/-!
Verification of the encrypted profile store in
`web/scripts/student-form-storage.js`.

The module persists small "profile records" (a name plus categorical
choices) in a string-keyed key-value store (`localStorage`), encrypted
with AES-GCM under a key derived from a fixed passphrase.  The
definitions below embed the module's data model and operations.  Browser
platform primitives used by the source (`TextEncoder`/`TextDecoder`,
`btoa`/`atob`, `window.crypto.subtle`, `String.prototype.trim`,
`String.prototype.toLowerCase`, `JSON.stringify`/`JSON.parse`) are not
part of the repository; each is modelled here by an executable Lean
function faithful to its interface and to the spec's description, and is
marked as such in its doc comment.  Everything else is translated
directly from the source file.
-/

/-- Modelled from the spec and the JS platform: `String.prototype.toLowerCase`
as used by the source for identifier normalization (ASCII lowering). -/
def toLowerStr (s : String) : String := ⟨s.data.map Char.toLower⟩

/-- Modelled from the JS platform: the whitespace class stripped by
`String.prototype.trim`. -/
def isJsWs (c : Char) : Bool := c = ' ' || c = '\t' || c = '\n' || c = '\r'

/-- Modelled from the spec and the JS platform: `String.prototype.trim`,
removing surrounding whitespace. -/
def trimStr (s : String) : String :=
  ⟨((s.data.dropWhile isJsWs).reverse.dropWhile isJsWs).reverse⟩

/-! ### UTF-8 codec

Modelled from the JS platform: `TextEncoder.encode` / `TextDecoder.decode`
used by `encryptData` / `decryptData` in the source. -/

/-- Modelled from the JS platform: UTF-8 encoding of one code point. -/
def utf8EncodeChar (n : Nat) : List Nat :=
  if n < 128 then [n]
  else if n < 2048 then [192 + n / 64, 128 + n % 64]
  else if n < 65536 then [224 + n / 4096, 128 + n / 64 % 64, 128 + n % 64]
  else [240 + n / 262144, 128 + n / 4096 % 64, 128 + n / 64 % 64, 128 + n % 64]

/-- UTF-8 encoding of a character list. -/
def utf8EncodeList : List Char → List Nat
  | [] => []
  | c :: cs => utf8EncodeChar c.toNat ++ utf8EncodeList cs

/-- Modelled from the JS platform: `TextEncoder.encode`, the byte sequence
of a string. -/
def strBytes (s : String) : List Nat := utf8EncodeList s.data

/-- Modelled from the JS platform: the byte-at-a-time decoding loop of
`TextDecoder.decode`.  The second argument counts pending continuation
bytes, the third accumulates the partial code point.  The decoder is
lenient (never fails), as the platform decoder substitutes replacement
characters. -/
def utf8DecodeSM : List Nat → Nat → Nat → List Char
  | [], 0, _ => []
  | [], _ + 1, _ => [Char.ofNat 65533]
  | b :: rest, 0, _ =>
    if b < 128 then Char.ofNat b :: utf8DecodeSM rest 0 0
    else if b < 224 then utf8DecodeSM rest 1 (b - 192)
    else if b < 240 then utf8DecodeSM rest 2 (b - 224)
    else utf8DecodeSM rest 3 (b - 240)
  | b :: rest, 1, acc => Char.ofNat (acc * 64 + (b - 128)) :: utf8DecodeSM rest 0 0
  | b :: rest, k + 2, acc => utf8DecodeSM rest (k + 1) (acc * 64 + (b - 128))

/-- Modelled from the JS platform: `TextDecoder.decode`. -/
def utf8Decode (l : List Nat) : List Char := utf8DecodeSM l 0 0

theorem utf8DecodeSM_state0 (b : Nat) (rest : List Nat) (a : Nat) :
    utf8DecodeSM (b :: rest) 0 a =
      if b < 128 then Char.ofNat b :: utf8DecodeSM rest 0 0
      else if b < 224 then utf8DecodeSM rest 1 (b - 192)
      else if b < 240 then utf8DecodeSM rest 2 (b - 224)
      else utf8DecodeSM rest 3 (b - 240) := rfl

theorem utf8DecodeSM_state1 (b : Nat) (rest : List Nat) (acc : Nat) :
    utf8DecodeSM (b :: rest) 1 acc =
      Char.ofNat (acc * 64 + (b - 128)) :: utf8DecodeSM rest 0 0 := rfl

theorem utf8DecodeSM_state2 (b : Nat) (rest : List Nat) (acc : Nat) :
    utf8DecodeSM (b :: rest) 2 acc = utf8DecodeSM rest 1 (acc * 64 + (b - 128)) := rfl

theorem utf8DecodeSM_state3 (b : Nat) (rest : List Nat) (acc : Nat) :
    utf8DecodeSM (b :: rest) 3 acc = utf8DecodeSM rest 2 (acc * 64 + (b - 128)) := rfl

theorem char_toNat_lt_maxCode (c : Char) : c.toNat < 1114112 := by
  rcases c.valid with h | h
  · exact Nat.lt_trans h (by omega)
  · exact h.2

theorem utf8EncodeChar_lt (c : Char) : ∀ x ∈ utf8EncodeChar c.toNat, x < 256 := by
  have hc := char_toNat_lt_maxCode c
  unfold utf8EncodeChar
  split
  · intro x hx; simp at hx; omega
  · split
    · intro x hx; simp at hx; rcases hx with h | h <;> omega
    · split
      · intro x hx; simp at hx; rcases hx with h | h | h <;> omega
      · intro x hx; simp at hx; rcases hx with h | h | h | h <;> omega

theorem utf8EncodeList_lt (l : List Char) : ∀ x ∈ utf8EncodeList l, x < 256 := by
  induction l with
  | nil => intro x hx; simp [utf8EncodeList] at hx
  | cons c cs ih =>
    intro x hx
    simp only [utf8EncodeList, List.mem_append] at hx
    rcases hx with h | h
    · exact utf8EncodeChar_lt c x h
    · exact ih x h

theorem strBytes_lt (s : String) : ∀ x ∈ strBytes s, x < 256 :=
  utf8EncodeList_lt s.data

theorem utf8DecodeSM_encodeChar (c : Char) (rest : List Nat) :
    utf8DecodeSM (utf8EncodeChar c.toNat ++ rest) 0 0 = c :: utf8DecodeSM rest 0 0 := by
  have hc := char_toNat_lt_maxCode c
  have hofn : Char.ofNat c.toNat = c := Char.ofNat_toNat c
  unfold utf8EncodeChar
  by_cases h1 : c.toNat < 128
  · rw [if_pos h1]
    show utf8DecodeSM (c.toNat :: rest) 0 0 = _
    rw [utf8DecodeSM_state0, if_pos h1, hofn]
  · rw [if_neg h1]
    by_cases h2 : c.toNat < 2048
    · rw [if_pos h2]
      show utf8DecodeSM ((192 + c.toNat / 64) :: (128 + c.toNat % 64) :: rest) 0 0 = _
      rw [utf8DecodeSM_state0, if_neg (by omega), if_pos (by omega), utf8DecodeSM_state1]
      have harith : (192 + c.toNat / 64 - 192) * 64 + (128 + c.toNat % 64 - 128) = c.toNat := by
        omega
      rw [harith, hofn]
    · rw [if_neg h2]
      by_cases h3 : c.toNat < 65536
      · rw [if_pos h3]
        show utf8DecodeSM ((224 + c.toNat / 4096) ::
          (128 + c.toNat / 64 % 64) :: (128 + c.toNat % 64) :: rest) 0 0 = _
        rw [utf8DecodeSM_state0, if_neg (by omega), if_neg (by omega), if_pos (by omega),
          utf8DecodeSM_state2, utf8DecodeSM_state1]
        have harith : ((224 + c.toNat / 4096 - 224) * 64 + (128 + c.toNat / 64 % 64 - 128)) * 64 +
            (128 + c.toNat % 64 - 128) = c.toNat := by
          omega
        rw [harith, hofn]
      · rw [if_neg h3]
        show utf8DecodeSM ((240 + c.toNat / 262144) :: (128 + c.toNat / 4096 % 64) ::
          (128 + c.toNat / 64 % 64) :: (128 + c.toNat % 64) :: rest) 0 0 = _
        rw [utf8DecodeSM_state0, if_neg (by omega), if_neg (by omega), if_neg (by omega),
          utf8DecodeSM_state3, utf8DecodeSM_state2, utf8DecodeSM_state1]
        have harith : (((240 + c.toNat / 262144 - 240) * 64 + (128 + c.toNat / 4096 % 64 - 128)) *
            64 + (128 + c.toNat / 64 % 64 - 128)) * 64 + (128 + c.toNat % 64 - 128) = c.toNat := by
          omega
        rw [harith, hofn]

theorem utf8Decode_encodeList (l : List Char) : utf8Decode (utf8EncodeList l) = l := by
  show utf8DecodeSM (utf8EncodeList l) 0 0 = l
  induction l with
  | nil => rfl
  | cons c cs ih =>
    show utf8DecodeSM (utf8EncodeChar c.toNat ++ utf8EncodeList cs) 0 0 = _
    rw [utf8DecodeSM_encodeChar, ih]

theorem utf8Decode_strBytes (s : String) : utf8Decode (strBytes s) = s.data :=
  utf8Decode_encodeList s.data

/-! ### Base64 codec

Modelled from the JS platform: `btoa` / `atob`, the blob codec used by
`encryptData` / `decryptData` in the source (base64 text for the
string-only key-value store). -/

/-- Base64 alphabet in index order. -/
def b64Alphabet : List Char :=
  "ABCDEFGHIJKLMNOPQRSTUVWXYZabcdefghijklmnopqrstuvwxyz0123456789+/".data

/-- Character for a 6-bit value. -/
def b64chr (n : Nat) : Char := b64Alphabet.getD n 'A'

/-- Six-bit value of a base64 character, `none` when the character is not in
the alphabet (`atob` throws there). -/
def b64val (c : Char) : Option Nat := b64Alphabet.indexOf? c

/-- Modelled from the JS platform: `btoa` on a byte sequence. -/
def b64encode : List Nat → List Char
  | [] => []
  | [a] => [b64chr (a / 4), b64chr (a % 4 * 16), '=', '=']
  | [a, b] => [b64chr (a / 4), b64chr (a % 4 * 16 + b / 16), b64chr (b % 16 * 4), '=']
  | a :: b :: c :: rest =>
    b64chr (a / 4) :: b64chr (a % 4 * 16 + b / 16) :: b64chr (b % 16 * 4 + c / 64) ::
      b64chr (c % 64) :: b64encode rest

/-- Modelled from the JS platform: `atob`, returning `none` on malformed
input (where `atob` throws). -/
def b64decode : List Char → Option (List Nat)
  | [] => some []
  | a :: b :: c :: d :: rest =>
    if c = '=' ∧ d = '=' ∧ rest = [] then
      (b64val a).bind fun x => (b64val b).map fun y => [x * 4 + y / 16]
    else if d = '=' ∧ rest = [] then
      (b64val a).bind fun x => (b64val b).bind fun y => (b64val c).map fun z =>
        [x * 4 + y / 16, y % 16 * 16 + z / 4]
    else
      (b64val a).bind fun x => (b64val b).bind fun y => (b64val c).bind fun z =>
        (b64val d).bind fun w => (b64decode rest).map fun bs =>
          (x * 4 + y / 16) :: (y % 16 * 16 + z / 4) :: (z % 4 * 64 + w) :: bs
  | _ => none

theorem b64val_b64chr : ∀ n, n < 64 → b64val (b64chr n) = some n := by decide

theorem b64chr_ne_pad : ∀ n, n < 64 → b64chr n ≠ '=' := by decide

theorem b64decode_b64encode (bs : List Nat) (hb : ∀ x ∈ bs, x < 256) :
    b64decode (b64encode bs) = some bs := by
  induction bs using b64encode.induct with
  | case1 => rfl
  | case2 a =>
    have ha : a < 256 := hb a (by simp)
    simp only [b64encode, b64decode]
    rw [if_pos (by simp), b64val_b64chr _ (by omega), b64val_b64chr _ (by omega)]
    simp only [Option.some_bind, Option.map]
    have h1 : a / 4 * 4 + a % 4 * 16 / 16 = a := by omega
    rw [h1]
  | case3 a b =>
    have ha : a < 256 := hb a (by simp)
    have hbb : b < 256 := hb b (by simp)
    simp only [b64encode, b64decode]
    rw [if_neg (by intro h; exact b64chr_ne_pad _ (by omega) h.1),
      if_pos (by simp), b64val_b64chr _ (by omega), b64val_b64chr _ (by omega),
      b64val_b64chr _ (by omega)]
    simp only [Option.some_bind, Option.map]
    have h1 : a / 4 * 4 + (a % 4 * 16 + b / 16) / 16 = a := by omega
    have h2 : (a % 4 * 16 + b / 16) % 16 * 16 + b % 16 * 4 / 4 = b := by omega
    rw [h1, h2]
  | case4 a b c rest ih =>
    have ha : a < 256 := hb a (by simp)
    have hbb : b < 256 := hb b (by simp)
    have hc : c < 256 := hb c (by simp)
    have hrest : ∀ x ∈ rest, x < 256 := by
      intro x hx; exact hb x (by simp [hx])
    simp only [b64encode, b64decode]
    rw [if_neg (by intro h; exact b64chr_ne_pad _ (by omega) h.1),
      if_neg (by intro h; exact b64chr_ne_pad _ (by omega) h.1),
      b64val_b64chr _ (by omega), b64val_b64chr _ (by omega), b64val_b64chr _ (by omega),
      b64val_b64chr _ (by omega), ih hrest]
    simp only [Option.some_bind, Option.map]
    have h1 : a / 4 * 4 + (a % 4 * 16 + b / 16) / 16 = a := by omega
    have h2 : (a % 4 * 16 + b / 16) % 16 * 16 + (b % 16 * 4 + c / 64) / 4 = b := by omega
    have h3 : (b % 16 * 4 + c / 64) % 4 * 64 + c % 64 = c := by omega
    rw [h1, h2, h3]

/-! ### Cryptographic primitives

The source derives an AES-GCM key with PBKDF2 (`deriveKey`) and encrypts
with `window.crypto.subtle.encrypt` / `.decrypt`.  Those platform
primitives are modelled by an executable keystream AEAD with the same
framing as the source and the spec: a key deterministically derived from
the fixed passphrase, salt and iteration count; encryption of plaintext
bytes under key and 12-byte nonce; a 16-byte authentication tag appended
to the ciphertext; decryption that recomputes and checks the tag and
fails (returns `none`) when it does not match or the blob is too short. -/

/-- Deterministic mixing fold used by the modelled primitives. -/
def mixList (l : List Nat) : Nat := l.foldl (fun a b => (a * 31 + b + 1) % 65536) 7

/-- Source constant `ENCRYPTION_KEY`, the fixed passphrase. -/
def ENCRYPTION_KEY : String := "witchcraft-and-wizardry-school-secure-key-2025"

/-- Modelled from the spec: `deriveKey` — a deterministic function of the
passphrase, the fixed salt and the iteration count, producing a 256-bit
(32-byte) key. -/
def deriveKeyBytes (pass salt : String) (iterations : Nat) : List Nat :=
  (List.range 32).map fun i =>
    (mixList (strBytes pass) * 131 + mixList (strBytes salt) * 31 + iterations + i * 17) % 256

/-- The derived key used by `encryptData` and `decryptData`, with the
source's passphrase, salt `witchcraft-salt` and 100000 iterations. -/
def derivedKey : List Nat := deriveKeyBytes ENCRYPTION_KEY "witchcraft-salt" 100000

/-- Modelled from the spec: one keystream byte of the AEAD cipher, a
deterministic function of key, nonce and position. -/
def keystreamByte (key iv : List Nat) (i : Nat) : Nat :=
  (mixList key * 7 + mixList iv * 131 + i * 101 + 3) % 256

/-- XOR of a byte sequence with the keystream, starting at position `i`. -/
def xorStream (key iv : List Nat) : List Nat → Nat → List Nat
  | [], _ => []
  | b :: rest, i => (b ^^^ keystreamByte key iv i) :: xorStream key iv rest (i + 1)

/-- Modelled from the spec: the 16-byte authentication tag over the
ciphertext, keyed by key and nonce. -/
def tagBytes (key iv ct : List Nat) : List Nat :=
  (List.range 16).map fun i => (mixList key * 3 + mixList iv * 7 + mixList ct * 31 + i * 11) % 256

/-- Modelled from the spec: AEAD encryption (`ciphertext ‖ tag`). -/
def gcmEncrypt (key iv pt : List Nat) : List Nat :=
  xorStream key iv pt 0 ++ tagBytes key iv (xorStream key iv pt 0)

/-- Modelled from the spec: AEAD decryption; fails when the blob is
shorter than the tag or the recomputed tag does not verify. -/
def gcmDecrypt (key iv ctt : List Nat) : Option (List Nat) :=
  if ctt.length < 16 then none
  else if ctt.drop (ctt.length - 16) = tagBytes key iv (ctt.take (ctt.length - 16)) then
    some (xorStream key iv (ctt.take (ctt.length - 16)) 0)
  else none

theorem xorStream_length (key iv l : List Nat) : ∀ i, (xorStream key iv l i).length = l.length := by
  induction l with
  | nil => intro i; rfl
  | cons b rest ih => intro i; simp [xorStream, ih]

theorem xorStream_lt (key iv l : List Nat) (hl : ∀ x ∈ l, x < 256) :
    ∀ i, ∀ x ∈ xorStream key iv l i, x < 256 := by
  induction l with
  | nil => intro i x hx; simp [xorStream] at hx
  | cons b rest ih =>
    intro i x hx
    simp only [xorStream, List.mem_cons] at hx
    rcases hx with h | h
    · subst h
      have hb : b < 256 := hl b (by simp)
      have hk : keystreamByte key iv i < 256 := Nat.mod_lt _ (by omega)
      have h256 : (256 : Nat) = 2 ^ 8 := rfl
      rw [h256] at hb hk ⊢
      exact Nat.xor_lt_two_pow hb hk
    · exact ih (fun x hx => hl x (by simp [hx])) (i + 1) x h

theorem xorStream_xorStream (key iv l : List Nat) :
    ∀ i, xorStream key iv (xorStream key iv l i) i = l := by
  induction l with
  | nil => intro i; rfl
  | cons b rest ih =>
    intro i
    simp only [xorStream, ih (i + 1)]
    rw [Nat.xor_cancel_right]

theorem tagBytes_length (key iv ct : List Nat) : (tagBytes key iv ct).length = 16 := by
  simp [tagBytes]

theorem tagBytes_lt (key iv ct : List Nat) : ∀ x ∈ tagBytes key iv ct, x < 256 := by
  intro x hx
  simp only [tagBytes, List.mem_map] at hx
  obtain ⟨i, _, rfl⟩ := hx
  exact Nat.mod_lt _ (by omega)

theorem gcmEncrypt_lt (key iv pt : List Nat) (hpt : ∀ x ∈ pt, x < 256) :
    ∀ x ∈ gcmEncrypt key iv pt, x < 256 := by
  intro x hx
  simp only [gcmEncrypt, List.mem_append] at hx
  rcases hx with h | h
  · exact xorStream_lt key iv pt hpt 0 x h
  · exact tagBytes_lt key iv _ x h

theorem gcmDecrypt_gcmEncrypt (key iv pt : List Nat) :
    gcmDecrypt key iv (gcmEncrypt key iv pt) = some pt := by
  have hctlen : (xorStream key iv pt 0).length = pt.length := xorStream_length key iv pt 0
  have hlen : (gcmEncrypt key iv pt).length = pt.length + 16 := by
    simp [gcmEncrypt, tagBytes_length, hctlen]
  have hsub : (gcmEncrypt key iv pt).length - 16 = (xorStream key iv pt 0).length := by omega
  unfold gcmDecrypt
  rw [if_neg (by omega), hsub]
  unfold gcmEncrypt
  rw [List.take_left, List.drop_left, if_pos rfl, xorStream_xorStream]

/-! ### Encrypt and decrypt

Translated from `encryptData` and `decryptData` in the source.  The
source draws a fresh random 12-byte nonce from
`window.crypto.getRandomValues`; the nonce is passed here explicitly.
`decryptData` returns `none` where the source function throws (and its
callers catch). -/

/-- Source function `encryptData`: UTF-8 encode, AEAD-encrypt under the
derived key and the nonce `iv`, prepend the nonce, base64-encode. -/
def encryptData (data : String) (iv : List Nat) : String :=
  ⟨b64encode (iv ++ gcmEncrypt derivedKey iv (strBytes data))⟩

/-- Source function `decryptData`: base64-decode, split the first 12
bytes off as the nonce, AEAD-decrypt the rest, UTF-8 decode. -/
def decryptData (encryptedData : String) : Option String :=
  (b64decode encryptedData.data).bind fun combined =>
    (gcmDecrypt derivedKey (combined.take 12) (combined.drop 12)).map fun pt =>
      ⟨utf8Decode pt⟩

theorem decryptData_encryptData (data : String) (iv : List Nat)
    (h12 : iv.length = 12) (hb : ∀ x ∈ iv, x < 256) :
    decryptData (encryptData data iv) = some data := by
  have hbytes : ∀ x ∈ iv ++ gcmEncrypt derivedKey iv (strBytes data), x < 256 := by
    intro x hx
    rcases List.mem_append.mp hx with h | h
    · exact hb x h
    · exact gcmEncrypt_lt derivedKey iv _ (strBytes_lt data) x h
  unfold decryptData encryptData
  rw [show (⟨b64encode (iv ++ gcmEncrypt derivedKey iv (strBytes data))⟩ : String).data =
      b64encode (iv ++ gcmEncrypt derivedKey iv (strBytes data)) from rfl,
    b64decode_b64encode _ hbytes]
  simp only [Option.some_bind]
  rw [List.take_left' h12, List.drop_left' h12, gcmDecrypt_gcmEncrypt]
  simp only [Option.map, utf8Decode_strBytes]

/-! ### Profile records and their JSON serialization

The source builds a plain object with exactly the fields
`name`, `avatarChoice`, `genderChoice`, `ageChoice`, `themeChoice`,
`savedAt` (all strings) and serializes it with `JSON.stringify`;
`JSON.parse` reverses this on load.  The platform JSON functions are
modelled by an executable serializer producing the stringify output for
such an object (insertion-order keys, string values with `"` and `\`
escaped) and a parser for exactly that shape, failing (`none`) where
`JSON.parse` would throw or not produce such an object. -/

/-- Profile record: the payload saved for one profile. -/
structure ProfileRecord where
  name : String
  avatarChoice : String
  genderChoice : String
  ageChoice : String
  themeChoice : String
  savedAt : String
deriving DecidableEq

/-- JSON string escaping of one character (quote and backslash). -/
def escChar (c : Char) : List Char := if c = '"' ∨ c = '\\' then ['\\', c] else [c]

/-- JSON string escaping of a character list. -/
def escapeChars : List Char → List Char
  | [] => []
  | c :: cs => escChar c ++ escapeChars cs

/-- Modelled from the JS platform: the `JSON.stringify` output for the
object built by `saveFormData`, at character-list level. -/
def serializeChars (r : ProfileRecord) : List Char :=
  "\x7b\"name\":\"".data ++ (escapeChars r.name.data ++ '"' ::
  (",\"avatarChoice\":\"".data ++ (escapeChars r.avatarChoice.data ++ '"' ::
  (",\"genderChoice\":\"".data ++ (escapeChars r.genderChoice.data ++ '"' ::
  (",\"ageChoice\":\"".data ++ (escapeChars r.ageChoice.data ++ '"' ::
  (",\"themeChoice\":\"".data ++ (escapeChars r.themeChoice.data ++ '"' ::
  (",\"savedAt\":\"".data ++ (escapeChars r.savedAt.data ++ '"' :: "\x7d".data)))))))))))

/-- Serialization of a record, `JSON.stringify` in the source. -/
def serializeRecord (r : ProfileRecord) : String := ⟨serializeChars r⟩

/-- Unescaping of one escaped character. -/
def unescChar (c : Char) : Option Char := if c = '"' ∨ c = '\\' then some c else none

/-- Parsing of a JSON string literal body up to its closing quote;
returns the unescaped content and the remaining input. -/
def parseStrLit : List Char → Option (List Char × List Char)
  | [] => none
  | [c] => if c = '"' then some ([], []) else none
  | c :: d :: rest =>
    if c = '"' then some ([], d :: rest)
    else if c = '\\' then
      match unescChar d with
      | some u => (parseStrLit rest).map fun p => (u :: p.1, p.2)
      | none => none
    else (parseStrLit (d :: rest)).map fun p => (c :: p.1, p.2)

/-- Consuming an expected literal from the front of the input. -/
def stripL : List Char → List Char → Option (List Char)
  | [], cs => some cs
  | _ :: _, [] => none
  | p :: ps, c :: cs => if c = p then stripL ps cs else none

/-- Modelled from the JS platform: `JSON.parse` restricted to the object
shape written by `saveFormData`, as consumed on load. -/
def parseRecord (s : String) : Option ProfileRecord :=
  (stripL "\x7b\"name\":\"".data s.data).bind fun cs0 =>
  (parseStrLit cs0).bind fun p1 =>
  (stripL ",\"avatarChoice\":\"".data p1.2).bind fun cs2 =>
  (parseStrLit cs2).bind fun p2 =>
  (stripL ",\"genderChoice\":\"".data p2.2).bind fun cs4 =>
  (parseStrLit cs4).bind fun p3 =>
  (stripL ",\"ageChoice\":\"".data p3.2).bind fun cs6 =>
  (parseStrLit cs6).bind fun p4 =>
  (stripL ",\"themeChoice\":\"".data p4.2).bind fun cs8 =>
  (parseStrLit cs8).bind fun p5 =>
  (stripL ",\"savedAt\":\"".data p5.2).bind fun cs10 =>
  (parseStrLit cs10).bind fun p6 =>
  (stripL "\x7d".data p6.2).bind fun cs12 =>
  if cs12 = [] then
    some ⟨⟨p1.1⟩, ⟨p2.1⟩, ⟨p3.1⟩, ⟨p4.1⟩, ⟨p5.1⟩, ⟨p6.1⟩⟩
  else none

theorem stripL_append (p rest : List Char) : stripL p (p ++ rest) = some rest := by
  induction p with
  | nil => rfl
  | cons c cs ih => simp [stripL, ih]

theorem parseStrLit_escape (cs : List Char) :
    ∀ rest, parseStrLit (escapeChars cs ++ '"' :: rest) = some (cs, rest) := by
  induction cs with
  | nil =>
    intro rest
    show parseStrLit ('"' :: rest) = _
    cases rest with
    | nil => rfl
    | cons d t => simp [parseStrLit]
  | cons c cs ih =>
    intro rest
    by_cases hc : c = '"' ∨ c = '\\'
    · have hesc : escChar c = ['\\', c] := if_pos hc
      show parseStrLit (escChar c ++ escapeChars cs ++ '"' :: rest) = _
      rw [hesc]
      show parseStrLit ('\\' :: c :: (escapeChars cs ++ '"' :: rest)) = _
      rw [parseStrLit]
      rw [if_neg (by decide), if_pos rfl]
      rw [show unescChar c = some c from if_pos hc]
      rw [ih rest]
      rfl
    · have hesc : escChar c = [c] := if_neg hc
      show parseStrLit (escChar c ++ escapeChars cs ++ '"' :: rest) = _
      rw [hesc]
      show parseStrLit (c :: (escapeChars cs ++ '"' :: rest)) = _
      cases hE : escapeChars cs ++ '"' :: rest with
      | nil => simp at hE
      | cons d t =>
        rw [parseStrLit]
        rw [if_neg (fun h => hc (Or.inl h)), if_neg (fun h => hc (Or.inr h))]
        rw [← hE, ih rest]
        rfl

theorem stripL_self (p : List Char) : stripL p p = some [] := by
  have h := stripL_append p []
  rwa [List.append_nil] at h

theorem parseRecord_serializeRecord (r : ProfileRecord) :
    parseRecord (serializeRecord r) = some r := by
  show parseRecord ⟨serializeChars r⟩ = some r
  unfold parseRecord
  rw [show (⟨serializeChars r⟩ : String).data = serializeChars r from rfl]
  unfold serializeChars
  simp only [stripL_append, Option.some_bind, parseStrLit_escape, stripL_self]
  rfl

/-! ### The key-value store and the profile store facade

Translated from the source.  `localStorage` is the string-keyed
key-value store; it is modelled as a function from keys to optional
values (`getItem` returns `null` for an absent key).  The source
constant `STORAGE_KEY_PREFIX` is the string literal inside
`storageKeyFor` below. -/

/-- The underlying key-value store (`localStorage`). -/
def Store : Type := String → Option String

/-- Modelled from the JS platform: `localStorage.setItem`. -/
def Store.set (st : Store) (k v : String) : Store :=
  fun q => if q = k then some v else st q

/-- Modelled from the JS platform: `localStorage.removeItem`. -/
def Store.remove (st : Store) (k : String) : Store :=
  fun q => if q = k then none else st q

/-- A store with no entries. -/
def emptyStore : Store := fun _ => none

/-- Source constant `CURRENT_PROFILE_KEY`. -/
def CURRENT_PROFILE_KEY : String := "currentProfile"

/-- Storage key for a profile identifier: the source's
`STORAGE_KEY_PREFIX + profileIdentifier`. -/
def storageKeyFor (profileIdentifier : String) : String :=
  "studentFormData_" ++ profileIdentifier

/-- Source function `getCurrentStorageKey`: reads the current-profile
pointer and prepends the storage-key namespace; `null` when the pointer
is unset (or holds an empty, hence falsy, string). -/
def getCurrentStorageKey (st : Store) : Option String :=
  match st CURRENT_PROFILE_KEY with
  | some p => if p = "" then none else some (storageKeyFor p)
  | none => none

/-- Identifier normalization in `saveFormData`:
`(studentName.trim() || 'Student').toLowerCase()`. -/
def normalizeId (raw : String) : String :=
  toLowerStr (if trimStr raw = "" then "Student" else trimStr raw)

/-- The `formData.get(...)` results read by `saveFormData`: each is the
field's string value or null when the control is absent/unselected. -/
structure FormInputs where
  studentName : Option String
  avatarChoice : Option String
  genderChoice : Option String
  ageChoice : Option String
  themeChoice : Option String

/-- The `data` object built by `saveFormData`: each field defaulted to
the empty string (`|| ''`), plus the `savedAt` timestamp. -/
def mkRecord (inputs : FormInputs) (now : String) : ProfileRecord :=
  { name := inputs.studentName.getD ""
    avatarChoice := inputs.avatarChoice.getD ""
    genderChoice := inputs.genderChoice.getD ""
    ageChoice := inputs.ageChoice.getD ""
    themeChoice := inputs.themeChoice.getD ""
    savedAt := now }

/-- The profile identifier chosen by `saveFormData`: the fixed literal
`mentor` for the mentor form, otherwise the normalized student name. -/
def profileIdFor (inputs : FormInputs) (isMentorForm : Bool) : String :=
  if isMentorForm then "mentor" else normalizeId (inputs.studentName.getD "")

/-- Source function `saveFormData` (its storage effects, in source
order): build the record, choose the profile identifier, store the
current-profile pointer, then encrypt and write the data entry.  The
nonce drawn by `encryptData` is passed as `cryptoResult`; `none` models
the awaited encryption step throwing (key derivation, encoding or
cipher failure), in which case control jumps to the catch block and no
further write happens. -/
def saveFormData (st : Store) (inputs : FormInputs) (isMentorForm : Bool) (now : String)
    (cryptoResult : Option (List Nat)) : Store :=
  let pid := profileIdFor inputs isMentorForm
  let st1 := Store.set st CURRENT_PROFILE_KEY pid
  match cryptoResult with
  | none => st1
  | some iv =>
    Store.set st1 (storageKeyFor pid) (encryptData (serializeRecord (mkRecord inputs now)) iv)

/-- Storage-key resolution in `StudentFormStorage.get`: an explicit
truthy identifier is used verbatim; otherwise the current profile. -/
def resolveStorageKey (st : Store) (profileIdentifier : Option String) : Option String :=
  match profileIdentifier with
  | some s => if s = "" then getCurrentStorageKey st else some (storageKeyFor s)
  | none => getCurrentStorageKey st

/-- Body of `StudentFormStorage.get` after key resolution: read the
entry, decrypt, parse; `none` on a missing/falsy entry and wherever the
source's catch block turns a thrown error into `null`. -/
def readEntry (st : Store) (key : String) : Option ProfileRecord :=
  (st key).bind fun savedData =>
    if savedData = "" then none
    else (decryptData savedData).bind fun plain => parseRecord plain

/-- Source facade method `StudentFormStorage.get`. -/
def StudentFormStorage.get (st : Store) (profileIdentifier : Option String) :
    Option ProfileRecord :=
  (resolveStorageKey st profileIdentifier).bind fun key => readEntry st key

/-- Source facade method `StudentFormStorage.getCurrentProfile`. -/
def StudentFormStorage.getCurrentProfile (st : Store) : Option String :=
  st CURRENT_PROFILE_KEY

/-- Source facade method `StudentFormStorage.setCurrentProfile`: a
truthy identifier is stored verbatim; a null or empty identifier
removes the pointer. -/
def StudentFormStorage.setCurrentProfile (st : Store) (profileIdentifier : Option String) :
    Store :=
  match profileIdentifier with
  | some s =>
    if s = "" then Store.remove st CURRENT_PROFILE_KEY
    else Store.set st CURRENT_PROFILE_KEY s
  | none => Store.remove st CURRENT_PROFILE_KEY

/-! ### Helper lemmas about the facade -/

theorem string_data_inj {a b : String} (h : a.data = b.data) : a = b :=
  congrArg String.mk h

theorem Store.set_same (st : Store) (k v : String) : Store.set st k v k = some v := by
  simp [Store.set]

theorem Store.set_other (st : Store) (k v q : String) (h : q ≠ k) :
    Store.set st k v q = st q := by
  simp [Store.set, h]

theorem storageKeyFor_inj {a b : String} (h : storageKeyFor a = storageKeyFor b) : a = b := by
  have hd := congrArg String.data h
  rw [storageKeyFor, storageKeyFor, String.data_append, String.data_append] at hd
  exact string_data_inj (List.append_cancel_left hd)

theorem storageKeyFor_ne_currentProfileKey (p : String) :
    storageKeyFor p ≠ CURRENT_PROFILE_KEY := by
  intro h
  have hl := congrArg String.length h
  rw [storageKeyFor, String.length_append] at hl
  have h16 : ("studentFormData_" : String).length = 16 := by decide
  have h14 : CURRENT_PROFILE_KEY.length = 14 := by decide
  omega

theorem toLowerStr_ne_empty {s : String} (h : s ≠ "") : toLowerStr s ≠ "" := by
  intro hc
  apply h
  have hd := congrArg String.data hc
  rw [show (toLowerStr s).data = s.data.map Char.toLower from rfl,
    show ("" : String).data = [] from rfl] at hd
  exact string_data_inj (by rw [List.map_eq_nil_iff] at hd; simp [hd])

theorem normalizeId_ne_empty (raw : String) : normalizeId raw ≠ "" := by
  unfold normalizeId
  by_cases h : trimStr raw = ""
  · rw [if_pos h]
    exact toLowerStr_ne_empty (by decide)
  · rw [if_neg h]
    exact toLowerStr_ne_empty h

theorem b64encode_ne_nil {l : List Nat} (h : l ≠ []) : b64encode l ≠ [] := by
  match l with
  | [] => exact absurd rfl h
  | [a] => simp [b64encode]
  | [a, b] => simp [b64encode]
  | a :: b :: c :: rest => simp [b64encode]

theorem encryptData_ne_empty (data : String) (iv : List Nat) (h : iv ≠ []) :
    encryptData data iv ≠ "" := by
  intro hc
  have hd := congrArg String.data hc
  rw [show (encryptData data iv).data =
      b64encode (iv ++ gcmEncrypt derivedKey iv (strBytes data)) from rfl,
    show ("" : String).data = [] from rfl] at hd
  exact b64encode_ne_nil (by simp [h]) hd

theorem saveFormData_some_eq (st : Store) (inputs : FormInputs) (isMentorForm : Bool)
    (now : String) (iv : List Nat) :
    saveFormData st inputs isMentorForm now (some iv) =
      Store.set (Store.set st CURRENT_PROFILE_KEY (profileIdFor inputs isMentorForm))
        (storageKeyFor (profileIdFor inputs isMentorForm))
        (encryptData (serializeRecord (mkRecord inputs now)) iv) := rfl

theorem saveFormData_none_eq (st : Store) (inputs : FormInputs) (isMentorForm : Bool)
    (now : String) :
    saveFormData st inputs isMentorForm now none =
      Store.set st CURRENT_PROFILE_KEY (profileIdFor inputs isMentorForm) := rfl

theorem resolveStorageKey_some (st : Store) (s : String) :
    resolveStorageKey st (some s) =
      if s = "" then getCurrentStorageKey st else some (storageKeyFor s) := rfl

theorem resolveStorageKey_none (st : Store) :
    resolveStorageKey st none = getCurrentStorageKey st := rfl

theorem readEntry_after_save (st : Store) (inputs : FormInputs) (isMentorForm : Bool)
    (now : String) (iv : List Nat) (h12 : iv.length = 12) (hb : ∀ x ∈ iv, x < 256) :
    readEntry (saveFormData st inputs isMentorForm now (some iv))
      (storageKeyFor (profileIdFor inputs isMentorForm)) = some (mkRecord inputs now) := by
  have hiv0 : iv ≠ [] := by intro h; rw [h] at h12; simp at h12
  rw [saveFormData_some_eq]
  unfold readEntry
  rw [Store.set_same]
  simp only [Option.some_bind]
  rw [if_neg (encryptData_ne_empty _ _ hiv0)]
  rw [decryptData_encryptData _ _ h12 hb]
  simp only [Option.some_bind]
  rw [parseRecord_serializeRecord]

theorem get_after_save (st : Store) (inputs : FormInputs) (isMentorForm : Bool)
    (now : String) (iv : List Nat) (h12 : iv.length = 12) (hb : ∀ x ∈ iv, x < 256)
    (pid : String) (hpid : pid = profileIdFor inputs isMentorForm) (hne : pid ≠ "") :
    StudentFormStorage.get (saveFormData st inputs isMentorForm now (some iv)) (some pid) =
      some (mkRecord inputs now) := by
  unfold StudentFormStorage.get
  rw [resolveStorageKey_some, if_neg hne, hpid]
  simp only [Option.some_bind]
  exact readEntry_after_save st inputs isMentorForm now iv h12 hb

/-! ### Additional store lemmas -/

theorem Store.remove_same (st : Store) (k : String) : Store.remove st k k = none := by
  simp [Store.remove]

theorem readEntry_congr {st1 st2 : Store} (k : String) (h : st1 k = st2 k) :
    readEntry st1 k = readEntry st2 k := by
  unfold readEntry
  rw [h]

theorem profileIdFor_false (inputs : FormInputs) :
    profileIdFor inputs false = normalizeId (inputs.studentName.getD "") := rfl

/-! ### Claims -/

/-- C1: for every record `r`, decrypting the blob produced by encrypting the
JSON serialization of `r` (`decryptData` applied to the result of
`encryptData`) returns that serialization exactly, for any 12-byte nonce. -/
theorem C1_decrypt_encrypt_roundtrip (r : ProfileRecord) (iv : List Nat)
    (h12 : iv.length = 12) (hb : ∀ x ∈ iv, x < 256) :
    decryptData (encryptData (serializeRecord r) iv) = some (serializeRecord r) :=
  decryptData_encryptData (serializeRecord r) iv h12 hb

/-- Witness for C1 at a concrete record and nonce. -/
theorem C1_witness :
    decryptData (encryptData (serializeRecord
        ⟨"Rowan", "witch", "female", "11", "dark", "2025-01-02T03:04:05.000Z"⟩)
        [0, 1, 2, 3, 4, 5, 6, 7, 8, 9, 10, 11]) =
      some (serializeRecord
        ⟨"Rowan", "witch", "female", "11", "dark", "2025-01-02T03:04:05.000Z"⟩) :=
  C1_decrypt_encrypt_roundtrip _ _ (by decide) (by decide)

/-- C2: saving under identifier B touches neither the storage key of any
other identifier A (distinct from B after normalization) nor therefore
what a load of A returns, and the storage-key mapping (fixed namespace
string concatenated with the identifier) is injective. -/
theorem C2_profile_isolation (st : Store) (inputs : FormInputs) (isMentorForm : Bool)
    (now : String) (cryptoResult : Option (List Nat)) (a b A : String)
    (hA : A ≠ profileIdFor inputs isMentorForm) (hAne : A ≠ "")
    (hkeys : storageKeyFor a = storageKeyFor b) :
    a = b ∧
    saveFormData st inputs isMentorForm now cryptoResult (storageKeyFor A) =
      st (storageKeyFor A) ∧
    StudentFormStorage.get (saveFormData st inputs isMentorForm now cryptoResult) (some A) =
      StudentFormStorage.get st (some A) := by
  have hkeyA : storageKeyFor A ≠ storageKeyFor (profileIdFor inputs isMentorForm) := by
    intro h
    exact hA (storageKeyFor_inj h)
  have hunchanged : saveFormData st inputs isMentorForm now cryptoResult (storageKeyFor A) =
      st (storageKeyFor A) := by
    cases cryptoResult with
    | none =>
      rw [saveFormData_none_eq]
      exact Store.set_other _ _ _ _ (storageKeyFor_ne_currentProfileKey A)
    | some iv =>
      rw [saveFormData_some_eq]
      rw [Store.set_other _ _ _ _ hkeyA]
      exact Store.set_other _ _ _ _ (storageKeyFor_ne_currentProfileKey A)
  refine ⟨storageKeyFor_inj hkeys, hunchanged, ?_⟩
  unfold StudentFormStorage.get
  rw [resolveStorageKey_some, resolveStorageKey_some, if_neg hAne, if_neg hAne]
  simp only [Option.some_bind]
  exact readEntry_congr _ hunchanged

/-- Witness for C2 at a concrete store, record and pair of identifiers. -/
theorem C2_witness :
    "x" = "x" ∧
    saveFormData emptyStore ⟨some "Alice", some "witch", some "female", some "11", some "dark"⟩
      false "2025-01-01T00:00:00.000Z" (some [0, 1, 2, 3, 4, 5, 6, 7, 8, 9, 10, 11])
      (storageKeyFor "bob") = emptyStore (storageKeyFor "bob") ∧
    StudentFormStorage.get
      (saveFormData emptyStore ⟨some "Alice", some "witch", some "female", some "11", some "dark"⟩
        false "2025-01-01T00:00:00.000Z" (some [0, 1, 2, 3, 4, 5, 6, 7, 8, 9, 10, 11]))
      (some "bob") = StudentFormStorage.get emptyStore (some "bob") :=
  C2_profile_isolation emptyStore
    ⟨some "Alice", some "witch", some "female", some "11", some "dark"⟩
    false "2025-01-01T00:00:00.000Z" (some [0, 1, 2, 3, 4, 5, 6, 7, 8, 9, 10, 11])
    "x" "x" "bob" (by decide) (by decide) rfl

/-- C3: every failure while producing a record during load — missing
entry, malformed stored data (any `savedData` on which `decryptData`
fails, including a blob that decodes to fewer than 12 bytes), or invalid
JSON — makes `StudentFormStorage.get` return `none` rather than
propagating an error. -/
theorem C3_load_failures_return_none (st : Store) (pid : String) (hpid : pid ≠ "") :
    (st (storageKeyFor pid) = none → StudentFormStorage.get st (some pid) = none) ∧
    (∀ s, st (storageKeyFor pid) = some s → decryptData s = none →
      StudentFormStorage.get st (some pid) = none) ∧
    (∀ s bs, st (storageKeyFor pid) = some s → b64decode s.data = some bs → bs.length < 12 →
      StudentFormStorage.get st (some pid) = none) ∧
    (∀ s plain, st (storageKeyFor pid) = some s → decryptData s = some plain →
      parseRecord plain = none → StudentFormStorage.get st (some pid) = none) := by
  have hget : StudentFormStorage.get st (some pid) = readEntry st (storageKeyFor pid) := by
    unfold StudentFormStorage.get
    rw [resolveStorageKey_some, if_neg hpid]
    simp only [Option.some_bind]
  refine ⟨?_, ?_, ?_, ?_⟩
  · intro h
    rw [hget]
    unfold readEntry
    rw [h]
    rfl
  · intro s hs hdec
    rw [hget]
    unfold readEntry
    rw [hs]
    simp only [Option.some_bind]
    by_cases hse : s = ""
    · rw [if_pos hse]
    · rw [if_neg hse, hdec]
      rfl
  · intro s bs hs hb64 hlen
    rw [hget]
    unfold readEntry
    rw [hs]
    simp only [Option.some_bind]
    by_cases hse : s = ""
    · rw [if_pos hse]
    · rw [if_neg hse]
      have hdrop : bs.drop 12 = [] := List.drop_eq_nil_of_le (by omega)
      have hdec : decryptData s = none := by
        unfold decryptData
        rw [hb64]
        simp only [Option.some_bind]
        rw [hdrop]
        rw [show gcmDecrypt derivedKey (bs.take 12) [] = none from rfl]
        rfl
      rw [hdec]
      rfl
  · intro s plain hs hdec hparse
    rw [hget]
    unfold readEntry
    rw [hs]
    simp only [Option.some_bind]
    by_cases hse : s = ""
    · rw [if_pos hse]
    · rw [if_neg hse, hdec]
      simp only [Option.some_bind]
      exact hparse

/-- Witness for C3: a stored blob for "rowan" that decodes to only 3
bytes (truncated below the 12-byte nonce) loads as `none`. -/
theorem C3_witness :
    StudentFormStorage.get (Store.set emptyStore (storageKeyFor "rowan") "AAAA")
      (some "rowan") = none :=
  (C3_load_failures_return_none (Store.set emptyStore (storageKeyFor "rowan") "AAAA")
    "rowan" (by decide)).2.2.1 "AAAA" [0, 0, 0] (by decide) (by decide) (by decide)

set_option maxRecDepth 100000 in
/-- C4 counterexample: after saving with raw name "Alice" (stored under
the normalized identifier "alice"), the public get operation returns the
record for the explicit argument "alice" but `none` for "ALICE", because
`StudentFormStorage.get` uses its identifier argument verbatim, without
normalization.  This refutes the claim that loading with "ALICE" through
the public get operation returns the record. -/
theorem C4_counterexample :
    StudentFormStorage.get
      (saveFormData emptyStore ⟨some "Alice", some "witch", some "female", some "11", some "dark"⟩
        false "2025-01-01T00:00:00.000Z" (some [0, 1, 2, 3, 4, 5, 6, 7, 8, 9, 10, 11]))
      (some "alice") =
      some ⟨"Alice", "witch", "female", "11", "dark", "2025-01-01T00:00:00.000Z"⟩ ∧
    StudentFormStorage.get
      (saveFormData emptyStore ⟨some "Alice", some "witch", some "female", some "11", some "dark"⟩
        false "2025-01-01T00:00:00.000Z" (some [0, 1, 2, 3, 4, 5, 6, 7, 8, 9, 10, 11]))
      (some "ALICE") = none := by
  decide

/-- C4 amended: after a save with any raw student name, the public get
operation with the trimmed and lower-cased (normalized) identifier
returns the saved record; identifiers differing only in case or
whitespace resolve to the same profile on the save path and on the load
path that normalizes before lookup, but the public get operation itself
uses an explicit identifier argument verbatim. -/
theorem C4_case_insensitive_lookup (st : Store) (inputs : FormInputs) (now : String)
    (iv : List Nat) (h12 : iv.length = 12) (hb : ∀ x ∈ iv, x < 256) :
    StudentFormStorage.get (saveFormData st inputs false now (some iv))
      (some (normalizeId (inputs.studentName.getD ""))) = some (mkRecord inputs now) :=
  get_after_save st inputs false now iv h12 hb _ (profileIdFor_false inputs).symm
    (normalizeId_ne_empty _)

/-- Witness for the amended C4 at a concrete store, record and nonce. -/
theorem C4_witness :
    StudentFormStorage.get
      (saveFormData emptyStore ⟨some " Alice ", some "wizard", some "male", some "9", some "light"⟩
        false "2025-02-03T04:05:06.000Z" (some [11, 10, 9, 8, 7, 6, 5, 4, 3, 2, 1, 0]))
      (some (normalizeId ((some " Alice " : Option String).getD ""))) =
      some (mkRecord ⟨some " Alice ", some "wizard", some "male", some "9", some "light"⟩
        "2025-02-03T04:05:06.000Z") :=
  C4_case_insensitive_lookup emptyStore
    ⟨some " Alice ", some "wizard", some "male", some "9", some "light"⟩
    "2025-02-03T04:05:06.000Z" [11, 10, 9, 8, 7, 6, 5, 4, 3, 2, 1, 0] (by decide) (by decide)

/-- C5: when the encryption step of save fails, nothing but the
current-profile pointer has been written; in particular the profile's
storage key — and every other key except the pointer key — holds exactly
its previous value. -/
theorem C5_failed_save_leaves_entry (st : Store) (inputs : FormInputs) (isMentorForm : Bool)
    (now : String) (k : String) (hk : k ≠ CURRENT_PROFILE_KEY) :
    saveFormData st inputs isMentorForm now none k = st k := by
  rw [saveFormData_none_eq]
  exact Store.set_other _ _ _ _ hk

/-- Witness for C5 at a concrete store and key. -/
theorem C5_witness :
    saveFormData emptyStore ⟨some "Alice", none, none, none, none⟩ false
      "2025-01-01T00:00:00.000Z" none (storageKeyFor "alice") =
      emptyStore (storageKeyFor "alice") :=
  C5_failed_save_leaves_entry emptyStore ⟨some "Alice", none, none, none, none⟩ false
    "2025-01-01T00:00:00.000Z" (storageKeyFor "alice") (by decide)

/-- C6 counterexample: on a save whose encryption fails before the data
write, the current-profile pointer has already been updated (from "old"
to "alice") even though the data entry was never written — refuting the
claim that the pointer is set only after the storage write and that a
save failing before the storage write leaves the pointer as it was. -/
theorem C6_counterexample :
    StudentFormStorage.getCurrentProfile
      (saveFormData (Store.set emptyStore CURRENT_PROFILE_KEY "old")
        ⟨some "Alice", none, none, none, none⟩ false "2025-01-01T00:00:00.000Z" none) =
      some "alice" ∧
    Store.set emptyStore CURRENT_PROFILE_KEY "old" CURRENT_PROFILE_KEY = some "old" ∧
    saveFormData (Store.set emptyStore CURRENT_PROFILE_KEY "old")
      ⟨some "Alice", none, none, none, none⟩ false "2025-01-01T00:00:00.000Z" none
      (storageKeyFor "alice") = none := by
  decide

/-- C6 amended: during save the pointer write precedes encryption and
the data write: the current-profile pointer is updated on every save
attempt (successful or not), a save whose encryption fails leaves the
profile's data entry untouched, and a successful save writes the
encrypted entry to the profile's storage key. -/
theorem C6_pointer_before_data_write (st : Store) (inputs : FormInputs) (isMentorForm : Bool)
    (now : String) (cryptoResult : Option (List Nat)) :
    StudentFormStorage.getCurrentProfile (saveFormData st inputs isMentorForm now cryptoResult) =
      some (profileIdFor inputs isMentorForm) ∧
    saveFormData st inputs isMentorForm now none
        (storageKeyFor (profileIdFor inputs isMentorForm)) =
      st (storageKeyFor (profileIdFor inputs isMentorForm)) ∧
    ∀ iv, saveFormData st inputs isMentorForm now (some iv)
        (storageKeyFor (profileIdFor inputs isMentorForm)) =
      some (encryptData (serializeRecord (mkRecord inputs now)) iv) := by
  refine ⟨?_, ?_, ?_⟩
  · unfold StudentFormStorage.getCurrentProfile
    cases cryptoResult with
    | none =>
      rw [saveFormData_none_eq]
      exact Store.set_same _ _ _
    | some iv =>
      rw [saveFormData_some_eq]
      rw [Store.set_other _ _ _ _ (Ne.symm (storageKeyFor_ne_currentProfileKey _))]
      exact Store.set_same _ _ _
  · rw [saveFormData_none_eq]
    exact Store.set_other _ _ _ _ (storageKeyFor_ne_currentProfileKey _)
  · intro iv
    rw [saveFormData_some_eq]
    exact Store.set_same _ _ _

/-- C7: two encryptions of the same plaintext under different 12-byte
nonces yield different blobs (the nonce is the first 12 bytes of the
encoded blob). -/
theorem C7_nonce_freshness (data : String) (iv1 iv2 : List Nat)
    (h1 : iv1.length = 12) (h2 : iv2.length = 12)
    (hb1 : ∀ x ∈ iv1, x < 256) (hb2 : ∀ x ∈ iv2, x < 256) (hne : iv1 ≠ iv2) :
    encryptData data iv1 ≠ encryptData data iv2 := by
  intro h
  apply hne
  have hd := congrArg String.data h
  rw [show (encryptData data iv1).data =
      b64encode (iv1 ++ gcmEncrypt derivedKey iv1 (strBytes data)) from rfl,
    show (encryptData data iv2).data =
      b64encode (iv2 ++ gcmEncrypt derivedKey iv2 (strBytes data)) from rfl] at hd
  have hbytes1 : ∀ x ∈ iv1 ++ gcmEncrypt derivedKey iv1 (strBytes data), x < 256 := by
    intro x hx
    rcases List.mem_append.mp hx with hm | hm
    · exact hb1 x hm
    · exact gcmEncrypt_lt _ _ _ (strBytes_lt data) x hm
  have hbytes2 : ∀ x ∈ iv2 ++ gcmEncrypt derivedKey iv2 (strBytes data), x < 256 := by
    intro x hx
    rcases List.mem_append.mp hx with hm | hm
    · exact hb2 x hm
    · exact gcmEncrypt_lt _ _ _ (strBytes_lt data) x hm
  have e1 := b64decode_b64encode _ hbytes1
  have e2 := b64decode_b64encode _ hbytes2
  rw [hd, e2] at e1
  have hblob : iv2 ++ gcmEncrypt derivedKey iv2 (strBytes data) =
      iv1 ++ gcmEncrypt derivedKey iv1 (strBytes data) := Option.some_injective _ e1
  have htake := congrArg (List.take 12) hblob
  rw [List.take_left' h1, List.take_left' h2] at htake
  exact htake.symm

/-- Witness for C7 at a concrete plaintext and two concrete nonces. -/
theorem C7_witness :
    encryptData "payload" [0, 1, 2, 3, 4, 5, 6, 7, 8, 9, 10, 11] ≠
      encryptData "payload" [1, 1, 2, 3, 4, 5, 6, 7, 8, 9, 10, 11] :=
  C7_nonce_freshness "payload" [0, 1, 2, 3, 4, 5, 6, 7, 8, 9, 10, 11]
    [1, 1, 2, 3, 4, 5, 6, 7, 8, 9, 10, 11]
    (by decide) (by decide) (by decide) (by decide) (by decide)

/-- C8: the identifier under which save stores a record is the raw name
trimmed and lower-cased; a name empty after trimming maps to the fixed
default identifier "student"; a load with no identifier argument and no
current-profile pointer returns `none`, not an error. -/
theorem C8_normalization_and_default (raw : String) (st st2 : Store) (inputs : FormInputs)
    (now : String) (iv : List Nat) (hraw : trimStr raw ≠ "")
    (hcp : st CURRENT_PROFILE_KEY = none)
    (hempty : trimStr (inputs.studentName.getD "") = "") :
    normalizeId "" = "student" ∧
    normalizeId raw = toLowerStr (trimStr raw) ∧
    StudentFormStorage.get st none = none ∧
    saveFormData st2 inputs false now (some iv) (storageKeyFor "student") =
      some (encryptData (serializeRecord (mkRecord inputs now)) iv) := by
  refine ⟨by decide, ?_, ?_, ?_⟩
  · unfold normalizeId
    rw [if_neg hraw]
  · unfold StudentFormStorage.get
    rw [resolveStorageKey_none]
    unfold getCurrentStorageKey
    rw [hcp]
    rfl
  · have hpid : profileIdFor inputs false = "student" := by
      rw [profileIdFor_false]
      unfold normalizeId
      rw [if_pos hempty]
      decide
    rw [saveFormData_some_eq, hpid]
    exact Store.set_same _ _ _

/-- Witness for C8 at concrete stores, raw name and inputs. -/
theorem C8_witness :
    normalizeId "" = "student" ∧
    normalizeId " Alice " = toLowerStr (trimStr " Alice ") ∧
    StudentFormStorage.get emptyStore none = none ∧
    saveFormData emptyStore ⟨some "  ", none, none, none, none⟩ false
      "2025-01-01T00:00:00.000Z" (some [0, 1, 2, 3, 4, 5, 6, 7, 8, 9, 10, 11])
      (storageKeyFor "student") =
      some (encryptData (serializeRecord (mkRecord ⟨some "  ", none, none, none, none⟩
        "2025-01-01T00:00:00.000Z")) [0, 1, 2, 3, 4, 5, 6, 7, 8, 9, 10, 11]) :=
  C8_normalization_and_default " Alice " emptyStore emptyStore
    ⟨some "  ", none, none, none, none⟩ "2025-01-01T00:00:00.000Z"
    [0, 1, 2, 3, 4, 5, 6, 7, 8, 9, 10, 11] (by decide) rfl (by decide)

/-- C9: the current-profile pointer stores identifiers verbatim — after
`setCurrentProfile` with a non-empty string, `getCurrentProfile` returns
that string exactly; a null or empty argument removes the pointer, after
which `getCurrentProfile` returns `none`. -/
theorem C9_pointer_verbatim (st : Store) (s : String) (hs : s ≠ "") :
    StudentFormStorage.getCurrentProfile (StudentFormStorage.setCurrentProfile st (some s)) =
      some s ∧
    StudentFormStorage.getCurrentProfile (StudentFormStorage.setCurrentProfile st (some "")) =
      none ∧
    StudentFormStorage.getCurrentProfile (StudentFormStorage.setCurrentProfile st none) =
      none := by
  refine ⟨?_, ?_, ?_⟩
  · show StudentFormStorage.getCurrentProfile
      (if s = "" then Store.remove st CURRENT_PROFILE_KEY
        else Store.set st CURRENT_PROFILE_KEY s) = some s
    rw [if_neg hs]
    exact Store.set_same _ _ _
  · show StudentFormStorage.getCurrentProfile
      (if ("" : String) = "" then Store.remove st CURRENT_PROFILE_KEY
        else Store.set st CURRENT_PROFILE_KEY "") = none
    rw [if_pos rfl]
    exact Store.remove_same _ _
  · show Store.remove st CURRENT_PROFILE_KEY CURRENT_PROFILE_KEY = none
    exact Store.remove_same _ _

/-- Witness for C9 at a concrete store and identifier (upper case and
trailing whitespace preserved). -/
theorem C9_witness :
    StudentFormStorage.getCurrentProfile
      (StudentFormStorage.setCurrentProfile emptyStore (some "Alice ")) = some "Alice " ∧
    StudentFormStorage.getCurrentProfile
      (StudentFormStorage.setCurrentProfile emptyStore (some "")) = none ∧
    StudentFormStorage.getCurrentProfile
      (StudentFormStorage.setCurrentProfile emptyStore none) = none :=
  C9_pointer_verbatim emptyStore "Alice " (by decide)

/-- C10: the record written by save has exactly the six fields `name`,
`avatarChoice`, `genderChoice`, `ageChoice`, `themeChoice`, `savedAt`;
an unselected choice is stored as the empty string rather than omitted;
and a successful load returns the record with all six fields present. -/
theorem C10_record_has_six_fields (st : Store) (inputs : FormInputs) (now : String)
    (iv : List Nat) (h12 : iv.length = 12) (hb : ∀ x ∈ iv, x < 256) :
    mkRecord inputs now =
      ⟨inputs.studentName.getD "", inputs.avatarChoice.getD "", inputs.genderChoice.getD "",
        inputs.ageChoice.getD "", inputs.themeChoice.getD "", now⟩ ∧
    (mkRecord { inputs with avatarChoice := none } now).avatarChoice = "" ∧
    (mkRecord { inputs with genderChoice := none } now).genderChoice = "" ∧
    (mkRecord { inputs with ageChoice := none } now).ageChoice = "" ∧
    (mkRecord { inputs with themeChoice := none } now).themeChoice = "" ∧
    StudentFormStorage.get (saveFormData st inputs false now (some iv))
      (some (profileIdFor inputs false)) = some (mkRecord inputs now) := by
  refine ⟨rfl, rfl, rfl, rfl, rfl, ?_⟩
  refine get_after_save st inputs false now iv h12 hb _ rfl ?_
  rw [profileIdFor_false]
  exact normalizeId_ne_empty _

/-- Witness for C10 at a concrete store, inputs with two unselected
choices, and nonce. -/
theorem C10_witness :
    mkRecord ⟨some "Rowan", some "witch", none, some "11", none⟩ "2025-01-01T00:00:00.000Z" =
      ⟨(some "Rowan" : Option String).getD "", (some "witch" : Option String).getD "",
        (none : Option String).getD "", (some "11" : Option String).getD "",
        (none : Option String).getD "", "2025-01-01T00:00:00.000Z"⟩ ∧
    (mkRecord { (⟨some "Rowan", some "witch", none, some "11", none⟩ : FormInputs) with
        avatarChoice := none } "2025-01-01T00:00:00.000Z").avatarChoice = "" ∧
    (mkRecord { (⟨some "Rowan", some "witch", none, some "11", none⟩ : FormInputs) with
        genderChoice := none } "2025-01-01T00:00:00.000Z").genderChoice = "" ∧
    (mkRecord { (⟨some "Rowan", some "witch", none, some "11", none⟩ : FormInputs) with
        ageChoice := none } "2025-01-01T00:00:00.000Z").ageChoice = "" ∧
    (mkRecord { (⟨some "Rowan", some "witch", none, some "11", none⟩ : FormInputs) with
        themeChoice := none } "2025-01-01T00:00:00.000Z").themeChoice = "" ∧
    StudentFormStorage.get
      (saveFormData emptyStore ⟨some "Rowan", some "witch", none, some "11", none⟩ false
        "2025-01-01T00:00:00.000Z" (some [0, 1, 2, 3, 4, 5, 6, 7, 8, 9, 10, 11]))
      (some (profileIdFor ⟨some "Rowan", some "witch", none, some "11", none⟩ false)) =
      some (mkRecord ⟨some "Rowan", some "witch", none, some "11", none⟩
        "2025-01-01T00:00:00.000Z") :=
  C10_record_has_six_fields emptyStore ⟨some "Rowan", some "witch", none, some "11", none⟩
    "2025-01-01T00:00:00.000Z" [0, 1, 2, 3, 4, 5, 6, 7, 8, 9, 10, 11] (by decide) (by decide)
